import Mathlib

/-!
Verification of the mockium rule-matching and template-rendering engine.

This file gives a shallow embedding, translated from the Go sources under
`internal/service` and `internal/transport`, of:
  - the value comparator (`internal/service/comparer/comparer.go`),
  - the placeholder grammar (`internal/service/constants/constants.go`),
  - the facet matchers and the request matcher
    (`internal/service/matcher/query_matcher.go`, `body_matcher.go`,
    and the headers/path matcher files),
  - the response builder (`internal/service/builder/template_builder.go`
    companion file with `ResponseBuilder`),
  - the HTTP handler (`internal/transport/handler`).

Go dynamic values (`any`) that flow through the engine are modelled by the
inductive type `Value`; Go maps are modelled by association lists with Go map
lookup semantics.  Stateful code (the request body stream and the per-request
context cache) is modelled by explicit state passing of a `Request` record.
Calls into the Go standard library (regexp compilation and matching, JSON
encoding and decoding, URL-encoded form parsing, file opening) are not code of
this repository; they are abstracted as the fields of a `GoEnv` record, and
theorems quantify over them where their behaviour does not matter.
-/

set_option autoImplicit false

namespace Mockium

/-- Stand-in for a compiled Go `*regexp.Regexp` value.  Only the identity of
the compiled pattern matters to the engine; matching behaviour is abstracted
by `GoEnv.rmatch`. -/
structure Regexp where
  pattern : String
deriving DecidableEq, Repr

/-- `constants.AnyValuePlaceholder` from
`internal/service/constants/constants.go`. -/
def AnyValuePlaceholder : String := "$\x7b...\x7d"

/-- `constants.ContentTypeApplicationJSON`. -/
def ContentTypeApplicationJSON : String := "application/json"

/-- `constants.ContentTypeFormURLEncoded`. -/
def ContentTypeFormURLEncoded : String := "application/x-www-form-urlencoded"

/-- A Go `any` value as it occurs in rule conditions, decoded request bodies
and response templates: strings, integers (the Go `int` family, produced by
the YAML decoder), floating-point numbers (`float32`/`float64`, produced by
`json.Unmarshal`; modelled by the exact rational value they denote), booleans,
`nil`, compiled regular expressions (inserted by rule pre-compilation),
`[]any` slices and `map[string]any` maps. -/
inductive Value where
  | vStr (s : String)
  | vInt (n : Int)
  | vFloat (q : Rat)
  | vBool (b : Bool)
  | vNull
  | vRegexp (r : Regexp)
  | vList (xs : List Value)
  | vMap (m : List (String × Value))
deriving Repr

/-- A Go `map[string]any`, as an association list. -/
abbrev ValMap := List (String × Value)

/-- Go map read `m[k]` with its `ok` flag: the value at the first matching
key, if any. -/
def lookupV (m : ValMap) (k : String) : Option Value :=
  (m.find? (fun kv => kv.1 == k)).map (·.2)

/-- Read of a single-valued string map (`http.Header.Get`,
`url.Values.Get`, `req.PathValue`, `mux.Vars(req)[k]`): the first value
stored under the key, or the empty string when the key is absent. -/
def getStr (m : List (String × String)) (k : String) : String :=
  ((m.find? (fun kv => kv.1 == k)).map (·.2)).getD ""

/-- Floor of the base-2 logarithm for numbers below `2 ^ 64` (the
magnitude range of a Go `int64`), computed by a bounded scan so that it
evaluates inside the kernel. -/
def floorLog2of64 (n : Nat) : Nat :=
  (List.range 64).foldl (fun acc k => if 2 ^ k ≤ n then k else acc) 0

/-- The value of the IEEE-754 float64 nearest to `n` (round to nearest,
ties to even, 53 significand bits), for `n` in the magnitude range of a Go
`int64`.  Every such value is an integer, so the result is a natural
number.  Numbers below `2 ^ 53` are exactly representable; beyond, the
bits under the leading 53 are rounded away. -/
def roundFloat64Nat (n : Nat) : Nat :=
  if n < 2 ^ 53 then n
  else
    let e := floorLog2of64 n - 52
    let q := n / 2 ^ e
    let r := n % 2 ^ e
    let half := 2 ^ (e - 1)
    if r < half then q * 2 ^ e
    else if half < r then (q + 1) * 2 ^ e
    else if q % 2 = 0 then q * 2 ^ e else (q + 1) * 2 ^ e

/-- The Go conversion `float64(i)` applied to an `int64` (used by
`Comparer.Compare` at comparer.go lines 66 and 72): round to the nearest
float64, which rounds away low bits of integers larger than `2 ^ 53` in
magnitude.  Rounding commutes with negation, so it is applied to the
magnitude. -/
def float64OfInt (i : Int) : Int :=
  if i < 0 then -(roundFloat64Nat i.natAbs : Int)
  else (roundFloat64Nat i.natAbs : Int)

mutual

/-- `Comparer.Compare` from `internal/service/comparer/comparer.go`.
`rmatch` stands for `(*regexp.Regexp).MatchString`.  The final catch-all
`return expected == actual` of the Go code is a Go interface comparison;
it is unfolded here into the per-constructor cases it can reach.  The
cross-type numeric cases apply the Go conversion `float64(.)` to the
integer side (`float64OfInt`, which rounds) before comparing, exactly as
comparer.go lines 66 and 72 do; float64 values themselves are modelled by
the exact rational they denote. -/
def Compare (rmatch : Regexp → String → Bool) : Value → Value → Bool
  | .vRegexp re, a =>
    match a with
    | .vStr s => rmatch re s
    | _ => false
  | .vStr exp, a =>
    if exp = AnyValuePlaceholder then true
    else
      match a with
      | .vStr s => exp == s
      | _ => false
  | .vList es, a =>
    match a with
    | .vList as => compareSlices rmatch es as
    | _ => false
  | .vMap em, a =>
    match a with
    | .vMap am => compareMaps rmatch em am
    | _ => false
  | .vInt e, a =>
    match a with
    | .vInt n => e == n
    | .vFloat q => (float64OfInt e : Rat) == q
    | _ => false
  | .vFloat e, a =>
    match a with
    | .vInt n => e == (float64OfInt n : Rat)
    | .vFloat q => e == q
    | _ => false
  | .vBool e, a =>
    match a with
    | .vBool b => e == b
    | _ => false
  | .vNull, a =>
    match a with
    | .vNull => true
    | _ => false

/-- `Comparer.compareSlices`: same length and element-wise `Compare`. -/
def compareSlices (rmatch : Regexp → String → Bool) : List Value → List Value → Bool
  | [], [] => true
  | e :: es, a :: as => Compare rmatch e a && compareSlices rmatch es as
  | _, _ => false

/-- `Comparer.compareMaps`: every expected key exists in the actual map and
its value compares true; keys present only in the actual map are ignored. -/
def compareMaps (rmatch : Regexp → String → Bool) : ValMap → ValMap → Bool
  | [], _ => true
  | (_k, ev) :: rest, actual =>
    (match lookupV actual _k with
     | some av => Compare rmatch ev av
     | none => false)
    && compareMaps rmatch rest actual

end

/-! ## Match-side placeholder grammar and rule pre-compilation -/

/-- The literal prefix of a `constants.RegexpRequestValuePlaceholder` match. -/
def regexpPlaceholderHead : String := "$\x7bregexp:"

/-- Executable form of the anchored Go regular expression
`^\$\{(regexp):(.*)\}$` (`constants.RegexpRequestValuePlaceholder`): a string
matches exactly when it is the prefix, then an inner pattern free of newlines
(Go `.` does not match a newline), then a closing brace as the last
character; the returned string is the captured inner pattern. -/
def parseRegexpPlaceholder (s : String) : Option String :=
  let cs := s.data
  let pre := regexpPlaceholderHead.data
  if cs.take pre.length = pre ∧ cs.getLast? = some '\x7d'
      ∧ pre.length + 1 ≤ cs.length then
    let mid := (cs.drop pre.length).dropLast
    if mid.contains '\n' then none else some (String.mk mid)
  else none

mutual

/-- The per-value step of `RequestMatcher.precompileRegexp`
(`internal/service/matcher/query_matcher.go`): a string matching the
match-side placeholder grammar is compiled with `regexp.Compile`
(`rcompile`); on compile failure a warning is logged and the original
string is kept as a literal; nested maps are processed recursively and any
other value is kept unchanged. -/
def precompileVal (rcompile : String → Option Regexp) : Value → Value
  | .vStr v =>
    match parseRegexpPlaceholder v with
    | some p =>
      match rcompile p with
      | some re => .vRegexp re
      | none => .vStr v
    | none => .vStr v
  | .vMap m => .vMap (precompileMap rcompile m)
  | v => v

/-- `RequestMatcher.precompileRegexp`: the map loop. -/
def precompileMap (rcompile : String → Option Regexp) : ValMap → ValMap
  | [] => []
  | (k, v) :: rest => (k, precompileVal rcompile v) :: precompileMap rcompile rest

end

/-- `model.MatchRequestTemplate` from `internal/model/request.go`
(the method field is handled by routing, outside this core; note the
structure has no form-parameter field). -/
structure MatchRequestTemplate where
  MustHeaders : ValMap
  MustPathParameters : ValMap
  MustQueryParameters : ValMap
  MustBody : ValMap

/-- One facet matcher as assembled by `NewRequestMatcher`: a `PathMatcher`,
`HeadersMatcher`, `BodyMatcher` or `QueryMatcher` holding its pre-compiled
condition maps. -/
inductive ParameterMatcher where
  | path (m : ValMap)
  | headers (m : ValMap)
  | body (matchHeaders matchBody : ValMap)
  | query (m : ValMap)
deriving Repr

/-- `matcher.NewRequestMatcher` from
`internal/service/matcher/query_matcher.go`: builds the list of facet
matchers in source order.  The source appends a `PathMatcher` both before
the headers matcher and again at the end; the body matcher receives the
pre-compiled headers map (empty when no header conditions are declared). -/
def NewRequestMatcher (rcompile : String → Option Regexp)
    (t : MatchRequestTemplate) : List ParameterMatcher :=
  let pathFirst :=
    if t.MustPathParameters.length > 0 then
      [ParameterMatcher.path (precompileMap rcompile t.MustPathParameters)]
    else []
  let matchHeaders :=
    if t.MustHeaders.length > 0 then precompileMap rcompile t.MustHeaders else []
  let headersM :=
    if t.MustHeaders.length > 0 then [ParameterMatcher.headers matchHeaders] else []
  let bodyM :=
    if t.MustBody.length > 0 then
      [ParameterMatcher.body matchHeaders (precompileMap rcompile t.MustBody)]
    else []
  let queryM :=
    if t.MustQueryParameters.length > 0 then
      [ParameterMatcher.query (precompileMap rcompile t.MustQueryParameters)]
    else []
  let pathAgain :=
    if t.MustPathParameters.length > 0 then
      [ParameterMatcher.path (precompileMap rcompile t.MustPathParameters)]
    else []
  pathFirst ++ headersM ++ bodyM ++ queryM ++ pathAgain

/-! ## Requests and facet matching -/

/-- The Go standard-library operations the engine calls.  These functions are
not code of this repository; theorems quantify over them except where a
stated hypothesis pins down the behaviour the claim depends on
(for example, `json.Unmarshal` failing on empty input). -/
structure GoEnv where
  /-- `(*regexp.Regexp).MatchString`. -/
  rmatch : Regexp → String → Bool
  /-- `regexp.Compile`: `none` models a compile error. -/
  rcompile : String → Option Regexp
  /-- `json.Unmarshal` into a `map[string]any`: `none` models a decode
  error (in particular on empty input). -/
  jsonUnmarshal : String → Option ValMap
  /-- Parsing of an URL-encoded request body by `req.ParseForm`:
  `none` models a parse error. -/
  parseFormBody : String → Option (List (String × List String))
  /-- `json.Marshal` of a response body map. -/
  jsonMarshal : ValMap → String
  /-- Whether `os.Open` succeeds on the named file. -/
  openFile : String → Bool
  /-- The served contents of a file (`http.ServeFile`). -/
  readFile : String → String

/-- The contents of the per-request context cache stored under
`ctxtBodyCacheKey{}`: either an already decoded body map or raw body
bytes (the byte form is read by `BodyMatcher.compare` but never written by
this program). -/
inductive BodyCache where
  | cmap (m : ValMap)
  | cbytes (b : String)
deriving Repr

/-- The per-request state of an `*http.Request` as the engine observes it:
the string facets, the parsed form (`req.PostForm`, `nil` until
`ParseForm` runs), the unread remainder of the body stream `req.Body`
(reading drains it), and the context cache. -/
structure Request where
  headers : List (String × String)
  query : List (String × String)
  pathParams : List (String × String)
  postForm : Option (List (String × List String))
  bodyContent : String
  bodyCache : Option BodyCache
deriving Repr

/-- `QueryMatcher.Match`: every declared query parameter must be present
with a non-empty value that compares true. -/
def QueryMatcher.Match (rmatch : Regexp → String → Bool)
    (matchQuery : ValMap) (req : Request) : Bool :=
  matchQuery.all fun kv =>
    let actual := getStr req.query kv.1
    !(actual == "") && Compare rmatch kv.2 (.vStr actual)

/-- `HeadersMatcher.Match`: every declared header must be present with a
non-empty value that compares true. -/
def HeadersMatcher.Match (rmatch : Regexp → String → Bool)
    (matchHeaders : ValMap) (req : Request) : Bool :=
  matchHeaders.all fun kv =>
    let actual := getStr req.headers kv.1
    !(actual == "") && Compare rmatch kv.2 (.vStr actual)

/-- `PathMatcher.Match`: every declared path parameter must be present with
a non-empty value that compares true. -/
def PathMatcher.Match (rmatch : Regexp → String → Bool)
    (matchPath : ValMap) (req : Request) : Bool :=
  matchPath.all fun kv =>
    let actual := getStr req.pathParams kv.1
    !(actual == "") && Compare rmatch kv.2 (.vStr actual)

/-- The flattening loop of `BodyMatcher.compare` over `req.PostForm`:
`cached[key] = value` for each value in declaration order, so the last
value wins and keys with no values are never inserted. -/
def flattenPostForm (pf : List (String × List String)) : ValMap :=
  pf.filterMap fun kv => (kv.2.getLast?).map fun v => (kv.1, Value.vStr v)

/-- `BodyMatcher.compare` from `internal/service/matcher/body_matcher.go`:
if the context cache already holds a decoded map, compare against it;
otherwise decode according to the content type (URL-encoded form via
`req.ParseForm`, JSON via `io.ReadAll` + `json.Unmarshal`, anything else is
a warned non-match), store the decoded map in the request context, and
compare.  Reading the body drains the stream.  The JSON branch first
consults a raw-bytes context cache; that branch returns without writing the
map cache, mirroring the source. -/
def BodyMatcher.compare (env : GoEnv) (matchBody : ValMap)
    (headerVal : String) (req : Request) : Bool × Request :=
  match req.bodyCache with
  | some (.cmap cached) =>
    (Compare env.rmatch (.vMap matchBody) (.vMap cached), req)
  | _ =>
    if headerVal = ContentTypeFormURLEncoded then
      match req.postForm with
      | some pf =>
        let cached := flattenPostForm pf
        (Compare env.rmatch (.vMap matchBody) (.vMap cached),
         { req with bodyCache := some (.cmap cached) })
      | none =>
        match env.parseFormBody req.bodyContent with
        | none => (false, { req with bodyContent := "" })
        | some pf =>
          let cached := flattenPostForm pf
          (Compare env.rmatch (.vMap matchBody) (.vMap cached),
           { req with bodyContent := "", postForm := some pf,
                      bodyCache := some (.cmap cached) })
    else if headerVal = ContentTypeApplicationJSON then
      match req.bodyCache with
      | some (.cbytes bs) =>
        match env.jsonUnmarshal bs with
        | none => (false, req)
        | some m => (Compare env.rmatch (.vMap matchBody) (.vMap m), req)
      | _ =>
        let body := req.bodyContent
        let req1 := { req with bodyContent := "" }
        match env.jsonUnmarshal body with
        | none => (false, req1)
        | some cached =>
          (Compare env.rmatch (.vMap matchBody) (.vMap cached),
           { req1 with bodyCache := some (.cmap cached) })
    else
      (false, req)

/-- `BodyMatcher.Match`: the content-type precondition.  When the declared
headers carry a non-empty `Content-Type`, the body matcher only activates
on an exactly equal actual content type; otherwise it decodes according to
the actual content type, failing (with a logged warning) when that is
empty. -/
def BodyMatcher.Match (env : GoEnv) (matchHeaders matchBody : ValMap)
    (req : Request) : Bool × Request :=
  let actualContentType := getStr req.headers "Content-Type"
  let step3 :=
    if actualContentType ≠ "" then
      BodyMatcher.compare env matchBody actualContentType req
    else
      (false, req)
  match lookupV matchHeaders "Content-Type" with
  | some expectedCT =>
    if (match expectedCT with | .vStr s => s != "" | _ => true)
        && (actualContentType == "") then
      (false, req)
    else
      match expectedCT with
      | .vStr str =>
        if str ≠ "" then
          if actualContentType = str then
            BodyMatcher.compare env matchBody actualContentType req
          else (false, req)
        else step3
      | _ => step3
  | none => step3

/-- Dispatch of `Match` on one facet matcher.  Only the body matcher
mutates the request (body stream and context cache). -/
def ParameterMatcher.run (env : GoEnv) :
    ParameterMatcher → Request → Bool × Request
  | .path m, req => (PathMatcher.Match env.rmatch m req, req)
  | .headers m, req => (HeadersMatcher.Match env.rmatch m req, req)
  | .body mh mb, req => BodyMatcher.Match env mh mb req
  | .query m, req => (QueryMatcher.Match env.rmatch m req, req)

/-- `RequestMatcher.Match`: every facet matcher must pass, in list order,
short-circuiting on the first failure; request mutations persist. -/
def RequestMatcher.Match (env : GoEnv) :
    List ParameterMatcher → Request → Bool × Request
  | [], req => (true, req)
  | m :: ms, req =>
    let r := ParameterMatcher.run env m req
    if r.1 then RequestMatcher.Match env ms r.2 else (false, r.2)

/-! ## Render-side placeholder grammar and the response builder -/

/-- The five facet tokens of `constants.Parameter`
(`headers`, `query`, `path`, `form`, `body`). -/
inductive Facet where
  | headers
  | query
  | path
  | form
  | body
deriving DecidableEq, Repr

/-- The literal token of each facet. -/
def facetString : Facet → String
  | .headers => "headers"
  | .query => "query"
  | .path => "path"
  | .form => "form"
  | .body => "body"

/-- All five facet tokens, in the order of the regular-expression
alternation. -/
def allFacets : List Facet := [.headers, .query, .path, .form, .body]

/-- The literal prefix of a `constants.RegexpResponseValuePlaceholder`
match. -/
def responsePlaceholderHead : String := "$\x7breq."

/-- The character class `[a-zA-Z0-9_-]` of the placeholder name group. -/
def isPlaceholderNameChar (c : Char) : Bool :=
  c.isAlphanum || c == '_' || c == '-'

/-- Executable form of the anchored Go regular expression
`^\$\{(req)\.(headers|query|path|form|body):([a-zA-Z0-9_-]+|\*)\}$`
(`constants.RegexpResponseValuePlaceholder`).  The facet is the segment
before the first colon (no facet token and no name character contains a
colon, so the decomposition is unique); the name is either non-empty and
made of name characters, or the single star. -/
def parseResponsePlaceholder (s : String) : Option (Facet × String) :=
  let cs := s.data
  let pre := responsePlaceholderHead.data
  if cs.take pre.length = pre ∧ cs.getLast? = some '\x7d'
      ∧ pre.length + 1 ≤ cs.length then
    let mid := (cs.drop pre.length).dropLast
    match allFacets.find?
        (fun f => mid.take ((facetString f).length + 1)
          == (facetString f).data ++ [':']) with
    | some f =>
      let name := mid.drop ((facetString f).length + 1)
      if (name ≠ [] ∧ name.all isPlaceholderNameChar) ∨ name = ['*'] then
        some (f, String.mk name)
      else none
    | none => none
  else none

/-- `req.FormValue`: when `req.Form` is still unparsed, parse it
(consuming an URL-encoded body; other content types leave the body alone
and yield an empty form, parse errors are ignored). -/
def ensureFormParsed (env : GoEnv) (req : Request) : Request :=
  match req.postForm with
  | some _ => req
  | none =>
    if getStr req.headers "Content-Type" = ContentTypeFormURLEncoded then
      match env.parseFormBody req.bodyContent with
      | some pf => { req with bodyContent := "", postForm := some pf }
      | none => { req with bodyContent := "", postForm := some [] }
    else { req with postForm := some [] }

/-- `req.Form.Get` after parsing: the first posted value for the name,
falling back to the URL query (Go merges the query values after the body
values). -/
def formValue (req : Request) (name : String) : String :=
  match req.postForm with
  | some pf =>
    match pf.find? (fun kv => kv.1 == name) with
    | some (_, v :: _) => v
    | _ => getStr req.query name
  | none => getStr req.query name

/-- `ResponseBuilder.valueByPlacehoders` from the builder file of
`internal/service` (mockium version): resolves one parsed placeholder
against the live request.  Headers, query, path and form lookups return
the facet value (the empty string when absent) and never fail; the body
facet re-reads `req.Body` (draining it) and JSON-decodes it, failing on a
decode error; an absent body field yields Go `nil`.  The
`unexpected placeholder` arm of the source is unreachable because the
grammar only produces the five facet tokens, which is why `Facet` has
exactly five constructors here. -/
def valueByPlacehoders (env : GoEnv) (f : Facet) (name : String)
    (req : Request) : Except String Value × Request :=
  match f with
  | .headers => (.ok (.vStr (getStr req.headers name)), req)
  | .query => (.ok (.vStr (getStr req.query name)), req)
  | .path => (.ok (.vStr (getStr req.pathParams name)), req)
  | .form =>
    let req1 := ensureFormParsed env req
    (.ok (.vStr (formValue req1 name)), req1)
  | .body =>
    let body := req.bodyContent
    let req1 := { req with bodyContent := "" }
    match env.jsonUnmarshal body with
    | none => (.error "parse body", req1)
    | some m => (.ok ((lookupV m name).getD .vNull), req1)

mutual

/-- The per-entry step of `ResponseBuilder.build`: a string value matching
the render-side grammar is resolved against the request (propagating
errors); other strings and non-map values pass through unchanged; a nested
map recurses through the empty-check of `ResponseBuilder.build` (a `nil`
nested result is identified with the empty map). -/
def buildValue (env : GoEnv) : Value → Request → Except String Value × Request
  | .vStr s, req =>
    (match parseResponsePlaceholder s with
     | some (f, name) =>
       (match valueByPlacehoders env f name req with
        | (.error e, req1) => (.error e, req1)
        | (.ok pv, req1) => (.ok pv, req1))
     | none => (.ok (.vStr s), req))
  | .vMap m, req =>
    if m.isEmpty then (.ok (.vMap []), req)
    else
      (match buildEntries env m req with
       | (.error e, req1) => (.error e, req1)
       | (.ok sub, req1) => (.ok (.vMap sub), req1))
  | other, req => (.ok other, req)

/-- The entry loop of `ResponseBuilder.build` over the template map. -/
def buildEntries (env : GoEnv) :
    ValMap → Request → Except String ValMap × Request
  | [], req => (.ok [], req)
  | (k, v) :: rest, req =>
    match buildValue env v req with
    | (.error e, req1) => (.error e, req1)
    | (.ok pv, req1) =>
      (match buildEntries env rest req1 with
       | (.error e, req2) => (.error e, req2)
       | (.ok restM, req2) => (.ok ((k, pv) :: restM), req2))

end

/-- `ResponseBuilder.build`: an empty template yields `nil`
(modelled `none`); otherwise the rebuilt map. -/
def ResponseBuilder.build (env : GoEnv) (templResp : ValMap)
    (req : Request) : Except String (Option ValMap) × Request :=
  if templResp.isEmpty then (.ok none, req)
  else
    match buildEntries env templResp req with
    | (.error e, req1) => (.error e, req1)
    | (.ok m, req1) => (.ok (some m), req1)

/-- `model.SetResponseTemplate` (`internal/model/response.go`):
`SetBody = none` models a `nil` body map, `SetFile = ""` no file. -/
structure SetResponseTemplate where
  SetStatus : Int
  SetHeaders : List (String × String)
  SetBody : Option ValMap
  SetFile : String

/-- `model.SetResponse`: the built response; `SetFile` holds the opened
file. -/
structure SetResponse where
  SetStatus : Int
  SetHeaders : List (String × String)
  SetBody : Option ValMap
  SetFile : Option String

/-- `ResponseBuilder.Build`: render the body template when one is set,
else open the declared file (failing when `os.Open` fails); headers and
status are copied verbatim. -/
def ResponseBuilder.Build (env : GoEnv) (templResp : SetResponseTemplate)
    (req : Request) : Except String SetResponse × Request :=
  match templResp.SetBody with
  | some tb =>
    (match ResponseBuilder.build env tb req with
     | (.error e, req1) => (.error e, req1)
     | (.ok resp, req1) =>
       (.ok { SetStatus := templResp.SetStatus,
              SetHeaders := templResp.SetHeaders,
              SetBody := resp, SetFile := none }, req1))
  | none =>
    if templResp.SetFile ≠ "" then
      if env.openFile templResp.SetFile then
        (.ok { SetStatus := templResp.SetStatus,
               SetHeaders := templResp.SetHeaders,
               SetBody := none, SetFile := some templResp.SetFile }, req)
      else (.error "open file", req)
    else
      (.ok { SetStatus := templResp.SetStatus,
             SetHeaders := templResp.SetHeaders,
             SetBody := none, SetFile := none }, req)

/-! ## The HTTP handler -/

/-- One (request matcher, response builder) pair held by a handler. -/
structure Rule where
  matchers : List ParameterMatcher
  template : SetResponseTemplate

/-- The wire-level outcome the handler writes: status code, headers in
write order, and body bytes. -/
structure HttpOut where
  status : Int
  headers : List (String × String)
  body : String
deriving DecidableEq, Repr

/-- Go `http.Error`: plain-text headers, the given status, and the message
followed by a newline as the body. -/
def httpError (msg : String) (code : Int) : HttpOut :=
  { status := code,
    headers := [("Content-Type", "text/plain; charset=utf-8"),
                ("X-Content-Type-Options", "nosniff")],
    body := msg ++ "\n" }

/-- `Handler.findMatches` (`internal/transport/handler`): return the
response builder of the first matcher that matches, threading the request
state (context cache, body stream) through successive matchers.  The Go
handler stores the pairs in a `map[transport.RequestMatcher]
transport.ResponseBuilder` and iterates it with `range`, whose order is
unspecified; the list argument here is one iteration order of that map. -/
def Handler.findMatches (env : GoEnv) :
    List Rule → Request → Option SetResponseTemplate × Request
  | [], req => (none, req)
  | r :: rs, req =>
    let m := RequestMatcher.Match env r.matchers req
    if m.1 then (some r.template, m.2) else Handler.findMatches env rs m.2

/-- `Handler.buildLogRequest`: reads the whole body for logging and
replaces `req.Body` with a buffer holding the same bytes, so the stream
the matchers see is full again. -/
def Handler.buildLogRequest (req : Request) : Request :=
  { req with bodyContent := req.bodyContent }

/-- `Handler.ServeHTTP` (mockium version): log the request, find the first
matching rule (404 via `http.Error "not found"` when none), build the
response (500 via `http.Error "failed prepare response"` on error), then
write headers, the status (200 when the template status is 0) and the
file, JSON body, or empty body. -/
def Handler.ServeHTTP (env : GoEnv) (rules : List Rule)
    (req : Request) : HttpOut :=
  let req0 := Handler.buildLogRequest req
  match Handler.findMatches env rules req0 with
  | (none, _) => httpError "not found" 404
  | (some templ, req1) =>
    match ResponseBuilder.Build env templ req1 with
    | (.error _, _) => httpError "failed prepare response" 500
    | (.ok resp, _) =>
      let status : Int := if resp.SetStatus ≠ 0 then resp.SetStatus else 200
      match resp.SetFile with
      | some fname =>
        { status := status,
          headers := resp.SetHeaders
            ++ [("Content-Disposition", "attachment; filename=" ++ fname)],
          body := env.readFile fname }
      | none =>
        match resp.SetBody with
        | some b =>
          { status := status,
            headers := resp.SetHeaders ++ [("Content-Type", "application/json")],
            body := env.jsonMarshal b }
        | none =>
          { status := status, headers := resp.SetHeaders, body := "" }

/-! ## Concrete instantiations of the external library operations

Closed statements (counterexamples and witnesses) evaluate the engine at a
concrete `GoEnv`.  The probe functions below are arbitrary computable
stand-ins for the Go library behaviour they model: the probe JSON decoder
decodes two fixed body strings and fails on everything else (in particular
on the empty string, as `json.Unmarshal` does). -/

/-- A probe `regexp.Compile` that succeeds on every pattern. -/
def probeRegexpCompile : String → Option Regexp :=
  fun s => some { pattern := s }

/-- A probe `regexp.Compile` that fails on every pattern. -/
def probeRegexpCompileFail : String → Option Regexp :=
  fun _ => none

/-- A probe `json.Unmarshal`: decodes the two body strings used by the
closed statements and errors on anything else, in particular on the empty
string left after a stream has been drained. -/
def probeJsonUnmarshal : String → Option ValMap :=
  fun s =>
    if s = "jsonUser" then some [("username", Value.vStr "test")]
    else if s = "jsonEmptyId" then some [("id", Value.vStr "")]
    else none

/-- The probe environment tying the probes together.  Regexp matching
tests the matched string against the stored pattern for equality, which is
enough to distinguish literal comparison from regexp comparison. -/
def probeEnv : GoEnv :=
  { rmatch := fun r s => r.pattern == s
    rcompile := probeRegexpCompile
    jsonUnmarshal := probeJsonUnmarshal
    parseFormBody := fun _ => none
    jsonMarshal := fun _ => "marshalled"
    openFile := fun _ => false
    readFile := fun _ => "" }

/-- A request carrying the JSON body `jsonUser` (which the probe decoder
decodes to a `username` field) and nothing else. -/
def jsonUserRequest : Request :=
  { headers := [("Content-Type", ContentTypeApplicationJSON)]
    query := []
    pathParams := []
    postForm := none
    bodyContent := "jsonUser"
    bodyCache := none }

/-- A request carrying the JSON body `jsonEmptyId` (decoded to an `id`
field holding the empty string). -/
def jsonEmptyIdRequest : Request :=
  { headers := [("Content-Type", ContentTypeApplicationJSON)]
    query := []
    pathParams := []
    postForm := none
    bodyContent := "jsonEmptyId"
    bodyCache := none }

/-- A request with no facet values at all. -/
def emptyRequest : Request :=
  { headers := []
    query := []
    pathParams := []
    postForm := none
    bodyContent := ""
    bodyCache := none }

/-! ## Claims -/

/-- C7: for all expected maps E and actual maps A, the map comparison
returns true if and only if every key of E exists in A and the expected
value at that key compares true against the actual value; keys present
only in A are ignored (non-symmetric subset matching), and `Compare` on
two maps is exactly this map comparison, applied recursively to nested
maps. -/
theorem C7_subset_map_law (rmatch : Regexp → String → Bool) (E A : ValMap) :
    (compareMaps rmatch E A = true ↔
      ∀ kv ∈ E, ∃ av, lookupV A kv.1 = some av ∧ Compare rmatch kv.2 av = true)
    ∧ Compare rmatch (.vMap E) (.vMap A) = compareMaps rmatch E A := by
  constructor
  · induction E with
    | nil => simp [compareMaps]
    | cons hd tl ih =>
      obtain ⟨k, v⟩ := hd
      rw [compareMaps]
      cases h : lookupV A k with
      | none => simp [h, ih]
      | some av => simp [h, ih]
  · rw [Compare]

/-- C8 counterexample: the claim's general clause — an integer expected
value and a float actual value compare equal exactly when their numeric
values are equal — fails beyond `2 ^ 53`: the Go conversion
`float64(expVal)` rounds `9007199254740993` (`2 ^ 53 + 1`) to
`9007199254740992`, so `Compare` returns `true` although the numeric
values differ. -/
theorem C8_counterexample :
    Compare probeEnv.rmatch (.vInt 9007199254740993)
      (.vFloat 9007199254740992) = true
    ∧ ((9007199254740993 : Int) : Rat) ≠ (9007199254740992 : Rat) := by
  refine ⟨rfl, by norm_num⟩

/-- C8 (amended): `Compare 30 30.0 = true` and `Compare 30 30.5 = false`;
in general an integer-typed expected value and a floating-point-typed
actual value (and vice versa) compare equal exactly when the float64
value of the integer — the integer rounded to the nearest float64 —
equals the numeric value of the float.  For integers of magnitude below
`2 ^ 53` the conversion is exact, so there the comparison holds exactly
when the numeric values are equal; for larger integers rounding can make
unequal values compare equal. -/
theorem C8_numeric_equivalence (rmatch : Regexp → String → Bool) :
    Compare rmatch (.vInt 30) (.vFloat 30) = true
    ∧ Compare rmatch (.vInt 30) (.vFloat (61 / 2 : Rat)) = false
    ∧ (∀ (i : Int) (q : Rat),
        Compare rmatch (.vInt i) (.vFloat q) = true
          ↔ (float64OfInt i : Rat) = q)
    ∧ (∀ (q : Rat) (i : Int),
        Compare rmatch (.vFloat q) (.vInt i) = true
          ↔ q = (float64OfInt i : Rat))
    ∧ (∀ (i : Int) (q : Rat), i.natAbs < 2 ^ 53 →
        (Compare rmatch (.vInt i) (.vFloat q) = true ↔ (i : Rat) = q)) := by
  have hexact : ∀ i : Int, i.natAbs < 2 ^ 53 → float64OfInt i = i := by
    intro i hi
    have h1 : roundFloat64Nat i.natAbs = i.natAbs := by
      rw [roundFloat64Nat, if_pos hi]
    rw [float64OfInt, h1]
    split <;> omega
  refine ⟨?_, ?_, ?_, ?_, ?_⟩
  · rfl
  · rw [Compare]
    rw [show float64OfInt 30 = 30 from hexact 30 (by norm_num)]
    norm_num
  · intro i q; rw [Compare]; simp
  · intro q i; rw [Compare]; simp
  · intro i q hi
    rw [Compare, hexact i hi]
    simp

/-- C8 witness: the amended equivalence evaluated at the concrete inputs
of the claim: 30 against 30.0 (in the exact range, so numeric equality
decides), and the two concrete comparison results. -/
theorem C8_numeric_equivalence_witness :
    (Compare probeEnv.rmatch (.vInt 30) (.vFloat 30) = true
      ↔ ((30 : Int) : Rat) = (30 : Rat))
    ∧ Compare probeEnv.rmatch (.vInt 30) (.vFloat 30) = true
    ∧ Compare probeEnv.rmatch (.vInt 30) (.vFloat (61 / 2 : Rat)) = false := by
  have h := C8_numeric_equivalence probeEnv.rmatch
  exact ⟨h.2.2.2.2 30 30 (by norm_num), h.1, h.2.1⟩

/-- C9: at rule construction time every string condition of the form
`$\x7bregexp:<pattern>\x7d` directly under a key is handed once to
`regexp.Compile`; on success the entry becomes the compiled expression, on
failure the entry stays the literal string (construction never aborts and
every key survives pre-compilation); and matching never recompiles:
`RequestMatcher.Match` is independent of the `regexp.Compile`
implementation (and of the render-side operations). -/
theorem C9_regexp_precompiled_once (rcompile : String → Option Regexp)
    (src : ValMap) (k s p : String)
    (hs : lookupV src k = some (.vStr s))
    (hp : parseRegexpPlaceholder s = some p) :
    lookupV (precompileMap rcompile src) k =
      some (match rcompile p with
            | some re => Value.vRegexp re
            | none => Value.vStr s)
    ∧ (precompileMap rcompile src).map Prod.fst = src.map Prod.fst
    ∧ (∀ (env : GoEnv) (f : String → Option Regexp) (g : ValMap → String)
          (o : String → Bool) (rd : String → String)
          (ms : List ParameterMatcher) (req : Request),
        RequestMatcher.Match
            { env with rcompile := f, jsonMarshal := g, openFile := o,
                       readFile := rd } ms req
          = RequestMatcher.Match env ms req) := by
  refine ⟨?_, ?_, ?_⟩
  · induction src with
    | nil => simp [lookupV] at hs
    | cons hd tl ih =>
      obtain ⟨k1, v1⟩ := hd
      by_cases hk : k1 == k
      · have hv : v1 = Value.vStr s := by
          simpa [lookupV, List.find?, hk] using hs
        subst hv
        simp [lookupV, List.find?, hk, precompileMap, precompileVal, hp]
      · have hs' : lookupV tl k = some (.vStr s) := by
          simpa [lookupV, List.find?, hk] using hs
        simpa [lookupV, List.find?, hk, precompileMap] using ih hs'
  · clear hs
    induction src with
    | nil => rfl
    | cons hd tl ih =>
      obtain ⟨k1, v1⟩ := hd
      simp [precompileMap, ih]
  · intro env f g o rd ms req
    induction ms generalizing req with
    | nil => rfl
    | cons m ms ih =>
      have hrun : ParameterMatcher.run
          { env with rcompile := f, jsonMarshal := g, openFile := o,
                     readFile := rd } m req
          = ParameterMatcher.run env m req := by
        cases m <;> rfl
      rw [RequestMatcher.Match, RequestMatcher.Match, hrun]
      by_cases hb : (ParameterMatcher.run env m req).1 <;> simp [hb, ih]

/-- The concrete condition map used by the closed instance of the C9
theorem: one regexp placeholder entry. -/
def C9src : ValMap := [("id", Value.vStr "$\x7bregexp:^[0-9]+$\x7d")]

/-- C9 witness: at the concrete rule condition of `C9src`, a succeeding
compiler yields the compiled entry and a failing compiler keeps the
literal, at the same key. -/
theorem C9_regexp_precompiled_once_witness :
    lookupV (precompileMap probeRegexpCompile C9src) "id"
      = some (.vRegexp { pattern := "^[0-9]+$" })
    ∧ lookupV (precompileMap probeRegexpCompileFail C9src) "id"
      = some (.vStr "$\x7bregexp:^[0-9]+$\x7d") := by
  constructor
  · have h := (C9_regexp_precompiled_once probeRegexpCompile C9src "id"
      "$\x7bregexp:^[0-9]+$\x7d" "^[0-9]+$" rfl rfl).1
    simpa [probeRegexpCompile] using h
  · have h := (C9_regexp_precompiled_once probeRegexpCompileFail C9src "id"
      "$\x7bregexp:^[0-9]+$\x7d" "^[0-9]+$" rfl rfl).1
    simpa [probeRegexpCompileFail] using h

/-- C10: pre-compilation rewrites only string values occurring directly as
map values, recursing into nested maps but not into sequences: a list
value is kept entirely unchanged (so a regexp placeholder inside it is
never compiled), at match time such an element is compared as the literal
placeholder string, and the wildcard token inside a sequence still matches
any value because the comparator recognises it at compare time. -/
theorem C10_sequences_not_precompiled (rcompile : String → Option Regexp)
    (rmatch : Regexp → String → Bool) (src : ValMap) (k : String)
    (xs : List Value) (h : lookupV src k = some (.vList xs)) :
    lookupV (precompileMap rcompile src) k = some (.vList xs)
    ∧ (∀ s p t, parseRegexpPlaceholder s = some p →
        Compare rmatch (.vStr s) (.vStr t) = (s == t))
    ∧ (∀ v, Compare rmatch (.vStr AnyValuePlaceholder) v = true)
    ∧ (∀ es as, compareSlices rmatch es as = true →
        es.length = as.length) := by
  refine ⟨?_, ?_, ?_, ?_⟩
  · induction src with
    | nil => simp [lookupV] at h
    | cons hd tl ih =>
      obtain ⟨k1, v1⟩ := hd
      by_cases hk : k1 == k
      · have hv : v1 = Value.vList xs := by
          simpa [lookupV, List.find?, hk] using h
        subst hv
        simp [lookupV, List.find?, hk, precompileMap, precompileVal]
      · have h' : lookupV tl k = some (.vList xs) := by
          simpa [lookupV, List.find?, hk] using h
        simpa [lookupV, List.find?, hk, precompileMap] using ih h'
  · intro s p t hp
    have hne : s ≠ AnyValuePlaceholder := by
      intro he
      rw [he] at hp
      exact Option.noConfusion (by simpa using hp)
    rw [Compare]
    simp [hne]
  · intro v
    cases v <;> rfl
  · intro es as
    induction es generalizing as with
    | nil =>
      cases as with
      | nil => intro _; rfl
      | cons a as => intro hc; exact Bool.noConfusion hc
    | cons e es ih =>
      cases as with
      | nil => intro hc; exact Bool.noConfusion hc
      | cons a as =>
        intro hc
        replace hc : (Compare rmatch e a && compareSlices rmatch es as) = true := hc
        rw [Bool.and_eq_true] at hc
        simpa using ih as hc.2

/-- The concrete condition map used by the closed instance of the C10
theorem: a sequence containing a regexp placeholder and the wildcard. -/
def C10src : ValMap :=
  [("tags", Value.vList [Value.vStr "$\x7bregexp:^a$\x7d",
                         Value.vStr AnyValuePlaceholder])]

/-- C10 witness: the sequence under `tags` survives pre-compilation
unchanged even with an always-succeeding compiler; its regexp-placeholder
element compares as a literal (true only against the placeholder text
itself, false against a string its pattern would match); the wildcard
element matches an arbitrary value. -/
theorem C10_sequences_not_precompiled_witness :
    lookupV (precompileMap probeRegexpCompile C10src) "tags"
      = some (Value.vList [Value.vStr "$\x7bregexp:^a$\x7d",
                           Value.vStr AnyValuePlaceholder])
    ∧ Compare probeEnv.rmatch (.vStr "$\x7bregexp:^a$\x7d") (.vStr "a") = false
    ∧ Compare probeEnv.rmatch (.vStr AnyValuePlaceholder) (.vInt 7) = true := by
  have h := C10_sequences_not_precompiled probeRegexpCompile probeEnv.rmatch
    C10src "tags"
    [Value.vStr "$\x7bregexp:^a$\x7d", Value.vStr AnyValuePlaceholder] rfl
  refine ⟨h.1, ?_, h.2.2.1 (.vInt 7)⟩
  rw [h.2.1 "$\x7bregexp:^a$\x7d" "^a$" "a" rfl]
  rfl

/-- Helper: a map comparison fails when an expected key is absent from the
actual map. -/
theorem compareMaps_eq_false_of_missing (rmatch : Regexp → String → Bool)
    (m A : ValMap) (k : String) (v : Value)
    (hk : (k, v) ∈ m) (h : lookupV A k = none) :
    compareMaps rmatch m A = false := by
  induction m with
  | nil => cases hk
  | cons hd tl ih =>
    obtain ⟨k1, v1⟩ := hd
    rw [compareMaps]
    rcases List.mem_cons.1 hk with heq | hmem
    · injection heq with hk1 hv1
      subst hk1
      simp [h]
    · simp [ih hmem]

/-- C4 counterexample: the claim, quantified over all facets, fails on the
body facet: against a declared wildcard pattern for the `id` field, a
request whose JSON body decodes to an `id` field holding the empty string
is matched with `true`, although the claim requires `Match` to return
`false` on an empty facet value even for the wildcard token. -/
theorem C4_counterexample :
    (BodyMatcher.Match probeEnv [] [("id", Value.vStr AnyValuePlaceholder)]
      jsonEmptyIdRequest).1 = true := rfl

/-- C4 (amended): for the headers, query and path facet matchers, a
declared pattern matches only if the facet value is present and non-empty
(`Match` is false on an absent or empty value even for the wildcard
token); for the body facet an absent field likewise fails, but a present
field holding the empty string satisfies the wildcard, because the
comparator accepts the wildcard against any value at compare time. -/
theorem C4_wildcard_presence (rmatch : Regexp → String → Bool)
    (m : ValMap) (k : String) (v : Value) (req : Request)
    (hk : (k, v) ∈ m) :
    (getStr req.query k = "" → QueryMatcher.Match rmatch m req = false)
    ∧ (getStr req.headers k = "" → HeadersMatcher.Match rmatch m req = false)
    ∧ (getStr req.pathParams k = "" → PathMatcher.Match rmatch m req = false)
    ∧ (∀ cached : ValMap, lookupV cached k = none →
        Compare rmatch (.vMap m) (.vMap cached) = false)
    ∧ Compare rmatch (.vStr AnyValuePlaceholder) (.vStr "") = true := by
  refine ⟨?_, ?_, ?_, ?_, ?_⟩
  · intro h
    refine List.all_eq_false.2 ⟨(k, v), hk, ?_⟩
    simp [h]
  · intro h
    refine List.all_eq_false.2 ⟨(k, v), hk, ?_⟩
    simp [h]
  · intro h
    refine List.all_eq_false.2 ⟨(k, v), hk, ?_⟩
    simp [h]
  · intro cached h
    rw [Compare]
    exact compareMaps_eq_false_of_missing rmatch m cached k v hk h
  · rfl

/-- C4 witness: the presence rule evaluated at a concrete wildcard-only
condition map and the empty request. -/
theorem C4_wildcard_presence_witness :
    QueryMatcher.Match probeEnv.rmatch
      [("x", Value.vStr AnyValuePlaceholder)] emptyRequest = false
    ∧ HeadersMatcher.Match probeEnv.rmatch
      [("x", Value.vStr AnyValuePlaceholder)] emptyRequest = false
    ∧ PathMatcher.Match probeEnv.rmatch
      [("x", Value.vStr AnyValuePlaceholder)] emptyRequest = false
    ∧ Compare probeEnv.rmatch
      (.vMap [("x", Value.vStr AnyValuePlaceholder)]) (.vMap []) = false
    ∧ Compare probeEnv.rmatch (.vStr AnyValuePlaceholder) (.vStr "") = true := by
  have h := C4_wildcard_presence probeEnv.rmatch
    [("x", Value.vStr AnyValuePlaceholder)] "x"
    (Value.vStr AnyValuePlaceholder) emptyRequest (by simp)
  exact ⟨h.1 rfl, h.2.1 rfl, h.2.2.1 rfl, h.2.2.2.1 [] rfl, h.2.2.2.2⟩

/-- C5 counterexample: a string matching the render-side placeholder
grammar whose name resolves against nothing in the current request is not
reported as an error: the header placeholder for the absent `X-Missing`
header renders to the empty-string default and `build` succeeds, where the
claim requires an error. -/
theorem C5_counterexample :
    (ResponseBuilder.build probeEnv
      [("a", Value.vStr "$\x7breq.headers:X-Missing\x7d")] emptyRequest).1
      = Except.ok (some [("a", Value.vStr "")]) := rfl

/-- C5 (amended): only body-related failures are render errors: a
`$\x7breq.body:<name>\x7d` placeholder whose body fails to JSON-decode
makes `build` return an error; a headers placeholder always succeeds and
resolves to the live header value, which is the empty string when the
header is absent (query, path and form placeholders behave the same way);
and the placeholder grammar only produces the five facet tokens, so the
`unexpected placeholder` arm is unreachable once the grammar matched. -/
theorem C5_render_error_scope (env : GoEnv) (k s name : String)
    (req : Request)
    (hp : parseResponsePlaceholder s = some (Facet.body, name))
    (hdec : env.jsonUnmarshal req.bodyContent = none) :
    (ResponseBuilder.build env [(k, Value.vStr s)] req).1
      = .error "parse body"
    ∧ (∀ s2 name2, parseResponsePlaceholder s2 = some (Facet.headers, name2) →
        (ResponseBuilder.build env [(k, Value.vStr s2)] req).1
          = .ok (some [(k, Value.vStr (getStr req.headers name2))]))
    ∧ (∀ s3 f3 name3, parseResponsePlaceholder s3 = some (f3, name3) →
        f3 ∈ allFacets) := by
  refine ⟨?_, ?_, ?_⟩
  · simp [ResponseBuilder.build, buildEntries, buildValue, hp,
      valueByPlacehoders, hdec]
  · intro s2 name2 hp2
    simp [ResponseBuilder.build, buildEntries, buildValue, hp2,
      valueByPlacehoders]
  · intro s3 f3 name3 _
    cases f3 <;> simp [allFacets]

/-- C5 witness: at the probe environment and the empty request (whose
empty body fails to decode), a body placeholder errors while a headers
placeholder for an absent header renders the empty string. -/
theorem C5_render_error_scope_witness :
    (ResponseBuilder.build probeEnv
      [("u", Value.vStr "$\x7breq.body:username\x7d")] emptyRequest).1
      = .error "parse body"
    ∧ (ResponseBuilder.build probeEnv
      [("u", Value.vStr "$\x7breq.headers:Host\x7d")] emptyRequest).1
      = .ok (some [("u", Value.vStr "")]) := by
  have h := C5_render_error_scope probeEnv "u" "$\x7breq.body:username\x7d"
    "username" emptyRequest rfl rfl
  refine ⟨h.1, ?_⟩
  have h2 := h.2.1 "$\x7breq.headers:Host\x7d" "Host" rfl
  simpa using h2

/-- C6 counterexample: when no rule matches, the handler calls
`http.Error(w, "not found", 404)`, so the 404 response body is the text
`not found` followed by a newline, not the empty body the claim states. -/
theorem C6_counterexample :
    Handler.ServeHTTP probeEnv [] emptyRequest = httpError "not found" 404
    ∧ (Handler.ServeHTTP probeEnv [] emptyRequest).body = "not found\n"
    ∧ "not found\n" ≠ "" := by
  refine ⟨rfl, rfl, by decide⟩

/-- C6 (amended): when no rule matches, the handler responds 404 with the
plain-text body `not found` (plus newline, via `http.Error`); when the
matched rule's `Build` returns an error, the handler responds 500 with the
fixed generic body `failed prepare response` (plus newline), independent
of the internal error value. -/
theorem C6_status_codes (env : GoEnv) (rules : List Rule) (req : Request) :
    ((Handler.findMatches env rules (Handler.buildLogRequest req)).1 = none →
      Handler.ServeHTTP env rules req = httpError "not found" 404)
    ∧ (∀ templ req1 e,
        Handler.findMatches env rules (Handler.buildLogRequest req)
          = (some templ, req1) →
        (ResponseBuilder.Build env templ req1).1 = .error e →
        Handler.ServeHTTP env rules req
          = httpError "failed prepare response" 500) := by
  constructor
  · intro h
    cases hm : Handler.findMatches env rules (Handler.buildLogRequest req) with
    | mk o r =>
      rw [hm] at h
      simp only at h
      subst h
      simp [Handler.ServeHTTP, hm]
  · intro templ req1 e hm hb
    cases hB : ResponseBuilder.Build env templ req1 with
    | mk res r2 =>
      rw [hB] at hb
      simp only at hb
      subst hb
      simp [Handler.ServeHTTP, hm, hB]

/-- The response template used by the C6 witness: it declares a file that
the probe environment fails to open, so `Build` errors. -/
def C6fileTemplate : SetResponseTemplate :=
  { SetStatus := 0, SetHeaders := [], SetBody := none, SetFile := "missing" }

/-- C6 witness: the two handler arms at concrete inputs: an empty rule set
gives the 404 response, and a matching rule whose build fails gives the
500 response. -/
theorem C6_status_codes_witness :
    Handler.ServeHTTP probeEnv [] emptyRequest = httpError "not found" 404
    ∧ Handler.ServeHTTP probeEnv
        [{ matchers := [], template := C6fileTemplate }] emptyRequest
        = httpError "failed prepare response" 500 := by
  constructor
  · exact (C6_status_codes probeEnv [] emptyRequest).1 rfl
  · exact (C6_status_codes probeEnv
      [{ matchers := [], template := C6fileTemplate }] emptyRequest).2
      C6fileTemplate (Handler.buildLogRequest emptyRequest) "open file" rfl rfl

/-- The match-condition template that results from a rule file declaring
only form-parameter conditions: `model.MatchRequestTemplate` has no form
field (unknown keys are dropped when the rule file is decoded into the
struct), so every condition map of the decoded template is empty. -/
def formOnlyRuleTemplate : MatchRequestTemplate :=
  { MustHeaders := [], MustPathParameters := [], MustQueryParameters := [],
    MustBody := [] }

/-- C3 counterexample: the claim requires that a rule declaring non-empty
form-parameter conditions fails to match a request from which a declared
form parameter is absent.  The rule model has no form-parameter category,
so such a rule decodes to `formOnlyRuleTemplate`; `NewRequestMatcher`
composes no matcher at all from it and `Match` returns `true` on a request
carrying no form data whatsoever. -/
theorem C3_counterexample :
    NewRequestMatcher probeRegexpCompile formOnlyRuleTemplate = []
    ∧ (RequestMatcher.Match probeEnv
        (NewRequestMatcher probeRegexpCompile formOnlyRuleTemplate)
        emptyRequest).1 = true :=
  ⟨rfl, rfl⟩

/-- C3 (amended): the request matcher is composed from exactly the facet
matchers implied by a non-empty condition category among headers, query,
path and body (the path matcher is appended twice when path conditions are
present); the rule model has no form-parameter category, so no form
matcher is ever composed and form-encoded request bodies are matched by
the body matcher instead. -/
theorem C3_composed_facets (rcompile : String → Option Regexp)
    (t : MatchRequestTemplate) :
    ((∃ m, ParameterMatcher.headers m ∈ NewRequestMatcher rcompile t)
      ↔ t.MustHeaders ≠ [])
    ∧ ((∃ m, ParameterMatcher.query m ∈ NewRequestMatcher rcompile t)
      ↔ t.MustQueryParameters ≠ [])
    ∧ ((∃ m, ParameterMatcher.path m ∈ NewRequestMatcher rcompile t)
      ↔ t.MustPathParameters ≠ [])
    ∧ ((∃ mh mb, ParameterMatcher.body mh mb ∈ NewRequestMatcher rcompile t)
      ↔ t.MustBody ≠ []) := by
  by_cases h1 : t.MustHeaders = [] <;>
    by_cases h2 : t.MustQueryParameters = [] <;>
      by_cases h3 : t.MustPathParameters = [] <;>
        by_cases h4 : t.MustBody = [] <;>
          simp [NewRequestMatcher, h1, h2, h3, h4, List.length_pos]

/-- A rule with no conditions (its matcher accepts every request) and
response status 201. -/
def C2ruleA : Rule :=
  { matchers := [],
    template := { SetStatus := 201, SetHeaders := [], SetBody := none,
                  SetFile := "" } }

/-- A rule with no conditions and response status 202. -/
def C2ruleB : Rule :=
  { matchers := [],
    template := { SetStatus := 202, SetHeaders := [], SetBody := none,
                  SetFile := "" } }

/-- C2: the handler stores its (matcher, builder) pairs in a Go map and
`findMatches` iterates it with `range`, whose order is unspecified.  The
two rule lists below are permutations of one another, i.e. two possible
iteration orders of the same two-entry map, both of whose rules match the
request; the handler output differs between them, so the first-match-wins
result depends on hash-map iteration order, refuting the claim. -/
theorem C2_order_dependence :
    List.Perm [C2ruleA, C2ruleB] [C2ruleB, C2ruleA]
    ∧ Handler.ServeHTTP probeEnv [C2ruleA, C2ruleB] emptyRequest
        = { status := 201, headers := [], body := "" }
    ∧ Handler.ServeHTTP probeEnv [C2ruleB, C2ruleA] emptyRequest
        = { status := 202, headers := [], body := "" }
    ∧ Handler.ServeHTTP probeEnv [C2ruleA, C2ruleB] emptyRequest
        ≠ Handler.ServeHTTP probeEnv [C2ruleB, C2ruleA] emptyRequest := by
  refine ⟨List.Perm.swap _ _ _, rfl, rfl, by decide⟩

/-- The match conditions of the C1 rule: a JSON body whose `username`
field is the literal `test`. -/
def C1template : MatchRequestTemplate :=
  { MustHeaders := [], MustPathParameters := [], MustQueryParameters := [],
    MustBody := [("username", Value.vStr "test")] }

/-- The response template of the C1 rule: a body with a
`$\x7breq.body:username\x7d` placeholder. -/
def C1response : SetResponseTemplate :=
  { SetStatus := 0, SetHeaders := [],
    SetBody := some [("username", Value.vStr "$\x7breq.body:username\x7d")],
    SetFile := "" }

/-- C1: at a request whose JSON body the body matcher has decoded during
matching: (1) the matcher matches and (2) caches the decoded structure in
the request context; (3) matching a second time within the same request
reuses the cache and yields the same result, so decoding twice does give
the same parsed structure; but (4) the renderer ignores the cache and
re-reads the drained `req.Body`, so its JSON decode fails and `Build`
returns an error instead of rendering, and (5) the handler answers 500.
This refutes the claim that the body stream is still consumable by the
renderer and that the `$\x7breq.body:<name>\x7d` template still renders
successfully after the body matcher has consumed the body. -/
theorem C1_render_after_body_match_fails :
    (RequestMatcher.Match probeEnv
        (NewRequestMatcher probeEnv.rcompile C1template) jsonUserRequest).1
      = true
    ∧ (RequestMatcher.Match probeEnv
        (NewRequestMatcher probeEnv.rcompile C1template) jsonUserRequest).2.bodyCache
      = some (.cmap [("username", Value.vStr "test")])
    ∧ (RequestMatcher.Match probeEnv
        (NewRequestMatcher probeEnv.rcompile C1template)
        (RequestMatcher.Match probeEnv
          (NewRequestMatcher probeEnv.rcompile C1template) jsonUserRequest).2).1
      = true
    ∧ (ResponseBuilder.Build probeEnv C1response
        (RequestMatcher.Match probeEnv
          (NewRequestMatcher probeEnv.rcompile C1template) jsonUserRequest).2).1
      = .error "parse body"
    ∧ Handler.ServeHTTP probeEnv
        [{ matchers := NewRequestMatcher probeEnv.rcompile C1template,
           template := C1response }] jsonUserRequest
      = httpError "failed prepare response" 500 :=
  ⟨rfl, rfl, rfl, rfl, rfl⟩

end Mockium
